import Mathlib

/-!
# Verification of the nuke_flow traversal-and-transform core

Shallow embedding of the repository's source (`src/utils`, `src/constants`,
the recursive walker in `src/index.js`, and the jscodeshift transform rules)
together with proofs settling the frozen claims.

Modelling conventions:
* Strings are modelled by `String` / `List Char`; the `node:path` helpers
  (`dirname`, `basename`, `extname`, `join`) are embedded for POSIX paths
  without trailing slashes, which is the shape every path in this program has.
* JavaScript `String.prototype.replace` with a global literal regex is
  embedded as leftmost non-overlapping replacement (`replaceAll`).
* The `RegExp` objects built by `matchGlob` are interpreted by a small
  backtracking matcher covering exactly the fragment this program generates:
  literal characters, backslash escapes, `.`, negated classes `[^...]`, and
  the postfix `*` quantifier, anchored at both ends (the code wraps the
  pattern in `^...$`).
* The jscodeshift document is embedded as a list of syntax nodes carrying the
  fields the transform rules read and write (`importKind`, `exportKind`,
  comment text); parsing and printing are external capabilities and are
  modelled as the identity on documents.
* The filesystem walked by `processDirectory` is a finite tree of entries;
  file contents are abstracted to the two events the file processor can
  observe: whether `readFile` succeeds and whether parsing succeeds.
-/

namespace NukeFlow

/-! ## Path helpers (src/utils, node:path for POSIX paths) -/

/-- Split a character list at its **last** occurrence of `sep`:
`lastSplit sep cs = some (pre, suf)` with `cs = pre ++ sep :: suf` and
`sep ∉ suf`; `none` when `sep` does not occur. -/
def lastSplit (sep : Char) : List Char → Option (List Char × List Char)
  | [] => none
  | c :: cs =>
    match lastSplit sep cs with
    | some (pre, suf) => some (c :: pre, suf)
    | none => if c = sep then some ([], cs) else none

/-- `node:path` `basename` (no trailing-slash handling): everything after the
last `/`, or the path itself when it has no `/`. -/
def basenameL (cs : List Char) : List Char :=
  match lastSplit '/' cs with
  | some (_, b) => b
  | none => cs

/-- `node:path` `dirname`: everything before the last `/` (`"/"` when the
path's only `/` is leading, `"."` when it has none). -/
def dirnameL (cs : List Char) : List Char :=
  match lastSplit '/' cs with
  | some ([], _) => ['/']
  | some (pre, _) => pre
  | none => ['.']

/-- Split a basename into (name-without-extension, extension), following the
composition used by `createTransformedFilePath`: `ext = extname(path)` and
`name = basename(path, ext)`.  The extension is the suffix from the last `.`
unless that `.` is the first character (dotfiles have no extension). -/
def nameExtSplit (b : List Char) : List Char × List Char :=
  match lastSplit '.' b with
  | some ([], _) => (b, [])
  | some (pre, suf) => (pre, '.' :: suf)
  | none => (b, [])

/-- `node:path` `extname` as a `String` function. -/
def extname (p : String) : String :=
  String.mk (nameExtSplit (basenameL p.data)).2

/-- `node:path` `join` for one directory and one relative component. -/
def joinL (d n : List Char) : List Char :=
  if d = [] then n
  else if d = ['.'] then n
  else if d.getLast? = some '/' then d ++ n
  else d ++ '/' :: n

/-- `node:path` `join` on strings. -/
def pathJoin (d n : String) : String :=
  String.mk (joinL d.data n.data)

/-- ASCII lowercasing of one character (`String.prototype.toLowerCase` on the
characters appearing in file extensions). -/
def lowerChar (c : Char) : Char :=
  if 'A' ≤ c ∧ c ≤ 'Z' then Char.ofNat (c.toNat + 32) else c

/-- `toLowerCase` on strings. -/
def lowerStr (s : String) : String :=
  String.mk (s.data.map lowerChar)

/-- src/utils `isJSFile`: the extension, lowercased, is `.js` or `.jsx`. -/
def isJSFile (filePath : String) : Bool :=
  let ext := lowerStr (extname filePath)
  ext = ".js" || ext = ".jsx"

/-- src/utils `createTransformedFilePath` on character lists:
`join(dirname(p), basename(p, extname(p)) ++ "_transformed" ++ extname(p))`. -/
def createTransformedFilePathL (cs : List Char) : List Char :=
  let dir := dirnameL cs
  let split := nameExtSplit (basenameL cs)
  joinL dir (split.1 ++ "_transformed".data ++ split.2)

/-- src/utils `createTransformedFilePath`. -/
def createTransformedFilePath (originalPath : String) : String :=
  String.mk (createTransformedFilePathL originalPath.data)

example : createTransformedFilePath "/a/b/Foo.jsx" = "/a/b/Foo_transformed.jsx" := by decide
example : createTransformedFilePath "/a/b/c.js" = "/a/b/c_transformed.js" := by decide
example : extname "/a/b/Foo.jsx" = ".jsx" := by decide
example : isJSFile "/a/b/Foo.JSX" = true := by decide
example : isJSFile "/a/b/c.txt" = false := by decide

/-! ## Glob matching (src/utils `matchGlob`, `shouldSkipPath`,
`shouldSkipDirectory`; src/constants `SKIP_DIRS`, `SKIP_PATHS`) -/

/-- JavaScript `text.replace(/lit/g, rep)` for a literal pattern: leftmost,
non-overlapping, global replacement.  The first argument is fuel; each step
consumes at least one character of the remaining text, so `text.length`
suffices. -/
def replaceAllAux (pat rep : List Char) : Nat → List Char → List Char
  | 0, cs => cs
  | _ + 1, [] => []
  | fuel + 1, c :: rest =>
    if !pat.isEmpty && pat.isPrefixOf (c :: rest) then
      rep ++ replaceAllAux pat rep fuel ((c :: rest).drop pat.length)
    else
      c :: replaceAllAux pat rep fuel rest

/-- Global literal replacement on strings. -/
def replaceAll (s pat rep : String) : String :=
  String.mk (replaceAllAux pat.data rep.data s.data.length s.data)

/-- The regex source built by `matchGlob` (before the `^`/`$` anchors are
added): the exact `.replace` chain of src/utils lines 26-32.  Note the order:
literal dots are escaped **after** `**` has been rewritten to `.*`, so the
dot of `.*` is itself escaped. -/
def globToRegex (pattern : String) : String :=
  let s1 := replaceAll pattern "**" "<<<DOUBLESTAR>>>"
  let s2 := replaceAll s1 "*" "[^/]*"
  let s3 := replaceAll s2 "<<<DOUBLESTAR>>>" ".*"
  let s4 := replaceAll s3 "?" "[^/]"
  let s5 := replaceAll s4 "." "\\."
  replaceAll s5 "+" "\\+"

/-- One regex atom of the fragment generated by `matchGlob`. -/
inductive RAtom : Type
  | lit (c : Char)
  | any
  | nclass (cs : List Char)
deriving DecidableEq, Repr

/-- Read the body of a character class up to the closing `]`. -/
def takeClass : List Char → Option (List Char × List Char)
  | [] => none
  | c :: rest =>
    if c = ']' then some ([], rest)
    else
      match takeClass rest with
      | some (cls, rem) => some (c :: cls, rem)
      | none => none

/-- Parse a regex source string into a list of atoms, each with a flag for a
postfix `*`.  Covers exactly the constructs `matchGlob` can emit (literals,
`\`-escapes, `.`, `[^...]`); anything else fails.  Fuel: each step consumes
at least one character. -/
def parseAtoms : Nat → List Char → Option (List (RAtom × Bool))
  | _, [] => some []
  | 0, _ :: _ => none
  | fuel + 1, cs =>
    let step : RAtom → List Char → Option (List (RAtom × Bool)) := fun a rest =>
      match rest with
      | '*' :: rest2 => (parseAtoms fuel rest2).map (fun as => (a, true) :: as)
      | _ => (parseAtoms fuel rest).map (fun as => (a, false) :: as)
    match cs with
    | [] => some []
    | '\\' :: c :: rest => step (RAtom.lit c) rest
    | '\\' :: [] => none
    | '[' :: '^' :: rest =>
      match takeClass rest with
      | some (cls, rem) => step (RAtom.nclass cls) rem
      | none => none
    | '[' :: _ => none
    | '*' :: _ => none
    | '?' :: _ => none
    | '+' :: _ => none
    | '(' :: _ => none
    | ')' :: _ => none
    | '|' :: _ => none
    | '.' :: rest => step RAtom.any rest
    | c :: rest => step (RAtom.lit c) rest

/-- Does one atom match one character?  (`.` excludes JavaScript's line
terminators.) -/
def matchRAtom : RAtom → Char → Bool
  | RAtom.lit c, x => x = c
  | RAtom.any, x =>
    !(x = '\n' || x = '\r' || x = Char.ofNat 0x2028 || x = Char.ofNat 0x2029)
  | RAtom.nclass cs, x => !cs.contains x

/-- Anchored backtracking matcher for a list of (atom, starred) pairs against
a text.  Fuel: every recursive call either drops an atom or drops a
character, so `atoms.length + text.length + 1` suffices on every branch. -/
def matchAtoms : Nat → List (RAtom × Bool) → List Char → Bool
  | 0, _, _ => false
  | _ + 1, [], [] => true
  | _ + 1, [], _ :: _ => false
  | _ + 1, (_, false) :: _, [] => false
  | fuel + 1, (a, false) :: as, c :: cs => matchRAtom a c && matchAtoms fuel as cs
  | fuel + 1, (a, true) :: as, cs =>
    matchAtoms fuel as cs ||
      match cs with
      | [] => false
      | c :: cs2 => matchRAtom a c && matchAtoms fuel ((a, true) :: as) cs2

/-- `new RegExp("^" ++ re ++ "$").test(text)` for the generated fragment. -/
def regexTest (re text : String) : Bool :=
  match parseAtoms (re.data.length + 1) re.data with
  | none => false
  | some as => matchAtoms (as.length + text.data.length + 1) as text.data

/-- src/utils `matchGlob`. -/
def matchGlob (pattern text : String) : Bool :=
  regexTest (globToRegex pattern) text

/-- src/constants `SKIP_DIRS`. -/
def SKIP_DIRS : List String :=
  ["node_modules", ".git", "dist", "build", "coverage", ".next", "__pycache__"]

/-- src/constants `SKIP_PATHS`. -/
def SKIP_PATHS : List String :=
  ["**/*.test.js", "**/*.spec.js", "**/test/**", "**/tests/**",
    "**/__tests__/**", "**/coverage/**", "**/node_modules/**", "**/.git/**"]

/-- JavaScript `String.prototype.startsWith`. -/
def strStartsWith (s pre : String) : Bool :=
  pre.data.isPrefixOf s.data

/-- src/utils `shouldSkipDirectory`: member of `SKIP_DIRS`, or starts with a
dot.  (`Array.prototype.includes` is string equality against each element.) -/
def shouldSkipDirectory (dirName : String) : Bool :=
  SKIP_DIRS.any (fun d => d = dirName) || strStartsWith dirName "."

/-- src/utils `shouldSkipPath`: some skip pattern matches. -/
def shouldSkipPath (filePath : String) : Bool :=
  SKIP_PATHS.any (fun pattern => matchGlob pattern filePath)

example : globToRegex "**/*.test.js" = "\\.*/[^/]*\\.test\\.js" := by decide
example : matchGlob "**/*.test.js" "src/a.test.js" = false := by decide
example : matchGlob "**/*.test.js" ".../a.test.js" = true := by decide
example : shouldSkipDirectory "node_modules" = true := by decide
example : shouldSkipPath "a.js" = false := by decide

/-! ## The parsed document and the rewrite rules
(src/transforms: annotations, imports, exports; src/transform `transform`) -/

/-- The `importKind` / `exportKind` values of the Flow AST. -/
inductive FKind : Type
  | value
  | type
  | typeof
deriving DecidableEq, Repr

/-- An `ExportSpecifier` node: its exported name and its (possibly absent)
`exportKind` field. -/
structure ExportSpec : Type where
  name : String
  exportKind : Option FKind
deriving DecidableEq, Repr

/-- A top-level node of the parsed document, carrying exactly the fields the
rewrite rules read or write. -/
inductive Node : Type
  | comment (text : String)
  | importDecl (importKind : Option FKind) (specifiers : List String) (source : String)
  | exportNamed (exportKind : Option FKind) (specifiers : List ExportSpec)
  | other (code : String)
deriving DecidableEq, Repr

/-- A parsed document: the jscodeshift collection of top-level nodes. -/
abbrev Doc := List Node

/-- Does a string occur as a substring? (JavaScript `RegExp.test` with a
literal alternative.) -/
def containsSub (needle : List Char) : List Char → Bool
  | [] => needle.isPrefixOf []
  | c :: cs => needle.isPrefixOf (c :: cs) || containsSub needle cs

/-- The comment filter of src/transforms/annotations:
`/@flow|@noflow|\$FlowFixMe/.test(text)`. -/
def isFlowPragmaText (t : String) : Bool :=
  containsSub "@flow".data t.data || containsSub "@noflow".data t.data ||
    containsSub "$FlowFixMe".data t.data

/-- Nodes kept by `cleanupAnnotations` (non-comments, and comments whose text
does not match the pragma regex). -/
def keepNode (n : Node) : Bool :=
  match n with
  | Node.comment t => !isFlowPragmaText t
  | _ => true

/-- src/transforms/annotations `cleanupAnnotations`: prune every comment node
matching the pragma regex. -/
def cleanupAnnotations (doc : Doc) : Doc :=
  doc.filter keepNode

/-- src/transforms/imports `cleanupImports`: reclassify `type` / `typeof`
imports as `value` imports; nothing else is touched. -/
def cleanupImports (doc : Doc) : Doc :=
  doc.map fun n =>
    match n with
    | Node.importDecl k specs src =>
      if k = some FKind.type ∨ k = some FKind.typeof then
        Node.importDecl (some FKind.value) specs src
      else n
    | _ => n

/-- Is this `exportKind` field truthy and different from `'value'`?
(`node.exportKind && node.exportKind !== 'value'`.) -/
def isTypeOnlyKind : Option FKind → Bool
  | some FKind.type => true
  | some FKind.typeof => true
  | _ => false

/-- The specifier fix inside `cleanupExports`: a specifier whose
`exportKind` is truthy and not `'value'` becomes a value export. -/
def fixExportSpec (s : ExportSpec) : ExportSpec :=
  if isTypeOnlyKind s.exportKind then { s with exportKind := some FKind.value } else s

/-- src/transforms/exports `cleanupExports`: for a named-export declaration
whose `exportKind` is truthy and not `'value'`, set the declaration kind to
`'value'` and fix its specifiers; all other declarations are left as they
are. -/
def cleanupExports (doc : Doc) : Doc :=
  doc.map fun n =>
    match n with
    | Node.exportNamed k specs =>
      if isTypeOnlyKind k then
        Node.exportNamed (some FKind.value) (specs.map fixExportSpec)
      else n
    | _ => n

/-- src/transform `transform` at the document level: the only rule the
pipeline invokes is `cleanupAnnotations`; the calls to `cleanupImports` and
`cleanupExports` are commented out in the source.  Parsing and serialization
are external capabilities, modelled as the identity. -/
def transform (doc : Doc) : Doc :=
  cleanupAnnotations doc

/-- Does the document contain a type-only (`type` or `typeof`) import
declaration? -/
def hasTypeOnlyImport (doc : Doc) : Bool :=
  doc.any fun n =>
    match n with
    | Node.importDecl k _ _ => isTypeOnlyKind k
    | _ => false

/-- Forget every import declaration's kind (used to state that a rule touches
nothing but import kinds). -/
def eraseImportKinds (doc : Doc) : Doc :=
  doc.map fun n =>
    match n with
    | Node.importDecl _ specs src => Node.importDecl none specs src
    | _ => n

/-- Does the document contain a named-export declaration whose
declaration-level kind is type-only? -/
def hasTypeOnlyExportDecl (doc : Doc) : Bool :=
  doc.any fun n =>
    match n with
    | Node.exportNamed k _ => isTypeOnlyKind k
    | _ => false

example :
    cleanupImports [Node.importDecl (some FKind.type) ["A"] "m"] =
      [Node.importDecl (some FKind.value) ["A"] "m"] := by decide
example :
    transform [Node.importDecl (some FKind.type) ["A"] "m"] =
      [Node.importDecl (some FKind.type) ["A"] "m"] := by decide
example :
    cleanupExports [Node.exportNamed (some FKind.value) [⟨"A", some FKind.type⟩]] =
      [Node.exportNamed (some FKind.value) [⟨"A", some FKind.type⟩]] := by decide
example : isFlowPragmaText " @flow strict " = true := by decide
example : transform [Node.comment "@flow", Node.other "x"] = [Node.other "x"] := by decide

/-! ## File processor and directory walker (src/index.js, part_001 variant) -/

/-- What the file processor can observe about a file's content: whether
`readFile` succeeds and whether jscodeshift parsing succeeds.  (The
serialized text itself is irrelevant to every claim about the walker.) -/
structure FileContent : Type where
  readable : Bool
  parses : Bool
deriving DecidableEq, Repr

/-- The module-level `globalStats` object. -/
structure GlobalStats : Type where
  totalFilesEncountered : Nat
  jsFilesFound : Nat
  nonJSFilesSkipped : Nat
  directoriesProcessed : Nat
  filesProcessedSuccessfully : Nat
  filesWithErrors : Nat
deriving DecidableEq, Repr

/-- The per-directory `dirStats` object. -/
structure DirStats : Type where
  totalFilesEncountered : Nat
  jsFilesFound : Nat
  nonJSFilesSkipped : Nat
  subdirectoriesProcessed : Nat
  filesProcessedSuccessfully : Nat
  filesWithErrors : Nat
deriving DecidableEq, Repr

/-- Zero-initialised global statistics. -/
def GlobalStats.init : GlobalStats := ⟨0, 0, 0, 0, 0, 0⟩

/-- Zero-initialised directory statistics. -/
def DirStats.init : DirStats := ⟨0, 0, 0, 0, 0, 0⟩

/-- Componentwise sum of two directory-statistics records (the loop of
`processDirectory` accumulates each entry's contribution into `dirStats`). -/
def DirStats.add (a b : DirStats) : DirStats :=
  ⟨a.totalFilesEncountered + b.totalFilesEncountered,
    a.jsFilesFound + b.jsFilesFound,
    a.nonJSFilesSkipped + b.nonJSFilesSkipped,
    a.subdirectoriesProcessed + b.subdirectoriesProcessed,
    a.filesProcessedSuccessfully + b.filesProcessedSuccessfully,
    a.filesWithErrors + b.filesWithErrors⟩

/-- How one `processFile` call ends: normal return, or a throw.  A throw from
`readFile` happens **before** the `try` block, a throw from parsing (or
writing) happens inside it. -/
inductive POutcome : Type
  | success
  | readError
  | processError
deriving DecidableEq, Repr

/-- src/index.js `processFile`: read, parse, serialize, write the output
next to the input.  Returns the updated `globalStats`, the outcome, and the
list of paths written.  `readFile` sits outside the `try`, so a read failure
updates no counter; a parse failure increments `globalStats.filesWithErrors`
inside the `catch` and re-throws; success writes the derived path and
increments `globalStats.filesProcessedSuccessfully`. -/
def processFile (filePath : String) (c : FileContent) (g : GlobalStats) :
    GlobalStats × POutcome × List String :=
  if c.readable = false then
    (g, POutcome.readError, [])
  else if c.parses = false then
    ({ g with filesWithErrors := g.filesWithErrors + 1 }, POutcome.processError, [])
  else
    ({ g with filesProcessedSuccessfully := g.filesProcessedSuccessfully + 1 },
      POutcome.success, [createTransformedFilePath filePath])

mutual
/-- One entry of a directory listing (`withFileTypes: true`). -/
inductive Entry : Type
  | file : String → FileContent → Entry
  | dir : String → Entries → Entry
/-- A directory listing, as returned by `readdir`. -/
inductive Entries : Type
  | nil : Entries
  | cons : Entry → Entries → Entries
end

/-- A file that reached `processFile` during a walk: its absolute path, its
position in the walked tree (list of names from the walk root), and its
content. -/
structure PFile : Type where
  full : String
  segs : List String
  content : FileContent
deriving DecidableEq, Repr

/-- Everything one walker call produces: the updated global stats, the
contribution to the calling directory's `dirStats`, the finalized `dirStats`
of every fully visited descendant directory, the paths written, and the
files handed to `processFile`. -/
structure WalkRes : Type where
  g : GlobalStats
  d : DirStats
  reports : List DirStats
  writes : List String
  processed : List PFile
deriving DecidableEq, Repr

/-- The relative path of a child entry (`relative(process.cwd(), fullPath)`,
maintained incrementally from the parent's relative path). -/
def childRel (rel name : String) : String :=
  if rel = "" then name else rel ++ "/" ++ name

mutual
/-- The body of `processDirectory`'s `for` loop for a single entry of the
directory at absolute path `abs` / relative path `rel` / tree position
`segs`, given the global stats `g` at that point. -/
def processEntry (abs rel : String) (segs : List String) (g : GlobalStats) :
    Entry → WalkRes
  | Entry.file name c =>
    let full := pathJoin abs name
    let r := childRel rel name
    let g1 := { g with totalFilesEncountered := g.totalFilesEncountered + 1 }
    let d1 := { DirStats.init with totalFilesEncountered := 1 }
    if shouldSkipPath r then
      ⟨g1, d1, [], [], []⟩
    else if isJSFile full then
      let g2 := { g1 with jsFilesFound := g1.jsFilesFound + 1 }
      let d2 := { d1 with jsFilesFound := 1 }
      let pf : PFile := ⟨full, segs ++ [name], c⟩
      match processFile full c g2 with
      | (g3, POutcome.success, w) =>
        ⟨g3, { d2 with filesProcessedSuccessfully := 1 }, [], w, [pf]⟩
      | (g3, _, w) =>
        ⟨g3, { d2 with filesWithErrors := 1 }, [], w, [pf]⟩
    else
      ⟨{ g1 with nonJSFilesSkipped := g1.nonJSFilesSkipped + 1 },
        { d1 with nonJSFilesSkipped := 1 }, [], [], []⟩
  | Entry.dir name sub =>
    if shouldSkipDirectory name then
      ⟨g, DirStats.init, [], [], []⟩
    else if shouldSkipPath (childRel rel name) then
      ⟨g, DirStats.init, [], [], []⟩
    else
      let res := processDirectory (pathJoin abs name) (childRel rel name)
        (segs ++ [name]) g sub
      ⟨{ res.g with directoriesProcessed := res.g.directoriesProcessed + 1 },
        { DirStats.init with subdirectoriesProcessed := 1 },
        res.d :: res.reports, res.writes, res.processed⟩

/-- src/index.js `processDirectory` on a directory listing: fold the loop
body over the entries, threading `globalStats` and accumulating this
directory's `dirStats`. -/
def processDirectory (abs rel : String) (segs : List String) (g : GlobalStats) :
    Entries → WalkRes
  | Entries.nil => ⟨g, DirStats.init, [], [], []⟩
  | Entries.cons e rest =>
    let r1 := processEntry abs rel segs g e
    let r2 := processDirectory abs rel segs r1.g rest
    ⟨r2.g, r1.d.add r2.d, r1.reports ++ r2.reports,
      r1.writes ++ r2.writes, r1.processed ++ r2.processed⟩
end

/-- What the resolved input path of a run can be (src/index.js top level plus
`processPath`). -/
inductive RunInput : Type
  | file (p : String) (c : FileContent)
  | directory (abs rel : String) (es : Entries)
  | missing (p : String)
  | other (p : String)

/-- src/index.js `processPath` together with the top-level `try`/`catch`:
`.ok` is a run that reaches the final summary (exit code 0), `.error` is a
fatal error (exit code 1).  A single-file run calls `processFile` directly —
with no eligibility or skip check — and a throw from it is fatal; a
directory run walks the tree at depth 0 with fresh statistics and every
per-file error is swallowed inside the walker. -/
def processPath : RunInput → Except String (GlobalStats × List DirStats × List String)
  | RunInput.missing p => Except.error ("Path not found: " ++ p)
  | RunInput.other p => Except.error ("Unsupported path type: " ++ p)
  | RunInput.file p c =>
    match processFile p c GlobalStats.init with
    | (g, POutcome.success, w) => Except.ok (g, [], w)
    | _ => Except.error "Failed to process file"
  | RunInput.directory abs rel es =>
    let r := processDirectory abs rel [] GlobalStats.init es
    Except.ok (r.g, r.d :: r.reports, r.writes)

/-- succeeded + failed, summed over a list of per-directory reports. -/
def sumSF (l : List DirStats) : Nat :=
  (l.map (fun d => d.filesProcessedSuccessfully + d.filesWithErrors)).sum

example :
    (processDirectory "/r" "" [] GlobalStats.init
        (Entries.cons (Entry.file "a.js" ⟨false, true⟩) Entries.nil)).d.filesWithErrors
      = 1 := by decide
example :
    (processDirectory "/r" "" [] GlobalStats.init
        (Entries.cons (Entry.file "a.js" ⟨false, true⟩) Entries.nil)).g.filesWithErrors
      = 0 := by decide

/-! ## Lemmas about the path helpers -/

theorem lastSplit_eq (sep : Char) (cs pre suf : List Char)
    (h : lastSplit sep cs = some (pre, suf)) : cs = pre ++ sep :: suf := by
  induction cs generalizing pre suf with
  | nil => simp [lastSplit] at h
  | cons c cs ih =>
    rw [lastSplit] at h
    cases hrec : lastSplit sep cs with
    | some pr =>
      obtain ⟨pre', suf'⟩ := pr
      rw [hrec] at h
      simp only [Option.some.injEq, Prod.mk.injEq] at h
      obtain ⟨h1, h2⟩ := h
      subst h1; subst h2
      simp [ih _ _ hrec]
    | none =>
      rw [hrec] at h
      by_cases hc : c = sep
      · simp only [hc, if_true, Option.some.injEq, Prod.mk.injEq] at h
        obtain ⟨h1, h2⟩ := h
        subst h1; subst h2
        simp [hc]
      · simp [hc] at h

theorem nameExtSplit_length (b : List Char) :
    (nameExtSplit b).1.length + (nameExtSplit b).2.length = b.length := by
  rw [nameExtSplit]
  cases h : lastSplit '.' b with
  | none => simp
  | some pr =>
    obtain ⟨pre, suf⟩ := pr
    cases pre with
    | nil => simp
    | cons c pre' =>
      have hb := lastSplit_eq '.' b (c :: pre') suf h
      subst hb
      simp
      omega

theorem joinL_length_cases (d n : List Char) :
    (joinL d n).length = n.length ∧ d.length ≤ 1 ∨
      d.length + n.length ≤ (joinL d n).length := by
  rw [joinL]
  split_ifs with h1 h2 h3
  · exact Or.inl ⟨rfl, by simp [h1]⟩
  · exact Or.inl ⟨rfl, by simp [h2]⟩
  · simp [List.length_append]
  · simp only [List.length_append, List.length_cons]
    omega

theorem createTransformedFilePathL_length (cs : List Char) :
    cs.length < (createTransformedFilePathL cs).length := by
  have h12 : ("_transformed".data).length = 12 := rfl
  have hsplit := nameExtSplit_length (basenameL cs)
  show cs.length <
    (joinL (dirnameL cs)
      ((nameExtSplit (basenameL cs)).1 ++ "_transformed".data ++
        (nameExtSplit (basenameL cs)).2)).length
  have hN : ((nameExtSplit (basenameL cs)).1 ++ "_transformed".data ++
      (nameExtSplit (basenameL cs)).2).length = (basenameL cs).length + 12 := by
    simp only [List.length_append, h12]
    omega
  have hjoin := joinL_length_cases (dirnameL cs)
    ((nameExtSplit (basenameL cs)).1 ++ "_transformed".data ++
      (nameExtSplit (basenameL cs)).2)
  generalize hNg : (nameExtSplit (basenameL cs)).1 ++ "_transformed".data ++
      (nameExtSplit (basenameL cs)).2 = N at hN hjoin
  cases h : lastSplit '/' cs with
  | none =>
    have hb : basenameL cs = cs := by simp [basenameL, h]
    rw [hb] at hN
    omega
  | some pr =>
    obtain ⟨pre, b'⟩ := pr
    have hb : basenameL cs = b' := by simp [basenameL, h]
    have hlen : cs.length = pre.length + 1 + b'.length := by
      rw [lastSplit_eq '/' cs pre b' h]
      simp only [List.length_append, List.length_cons]
      omega
    rw [hb] at hN
    cases pre with
    | nil =>
      simp only [List.length_nil] at hlen
      omega
    | cons c pre' =>
      have hd : dirnameL cs = c :: pre' := by simp [dirnameL, h]
      have hdl : (dirnameL cs).length = pre'.length + 1 := by
        rw [hd]
        simp
      have hcl : (c :: pre').length = pre'.length + 1 := by simp
      rw [hcl] at hlen
      omega

theorem createTransformedFilePath_ne (p : String) :
    createTransformedFilePath p ≠ p := by
  intro h
  have hdata : (createTransformedFilePath p).data = p.data := congrArg String.data h
  have hlen := createTransformedFilePathL_length p.data
  rw [createTransformedFilePath] at hdata
  simp at hdata
  rw [hdata] at hlen
  omega

/-! ## Lemmas about the walker -/

/-- A processed file whose read and parse both succeed. -/
def pfOk (pf : PFile) : Bool :=
  pf.content.readable && pf.content.parses

/-- A processed file whose read succeeds but whose parse fails — the only
failure kind whose global counter increment survives `processFile`. -/
def pfParseFail (pf : PFile) : Bool :=
  pf.content.readable && !pf.content.parses

/-- The walk invariant: how the global counters, the per-directory counters,
the written paths and the processed files of one walker call relate. -/
def WSpec (segs : List String) (g : GlobalStats) (r : WalkRes) : Prop :=
  r.g.filesProcessedSuccessfully =
      g.filesProcessedSuccessfully + r.processed.countP pfOk ∧
    r.g.filesWithErrors = g.filesWithErrors + r.processed.countP pfParseFail ∧
    r.d.filesProcessedSuccessfully + r.d.filesWithErrors + sumSF r.reports =
      r.processed.length ∧
    r.writes =
      (r.processed.filter pfOk).map (fun pf => createTransformedFilePath pf.full) ∧
    ∀ pf ∈ r.processed, ∃ rest, pf.segs = segs ++ rest ∧ rest ≠ [] ∧
      "node_modules" ∉ rest.dropLast

theorem sumSF_cons (d : DirStats) (l : List DirStats) :
    sumSF (d :: l) = d.filesProcessedSuccessfully + d.filesWithErrors + sumSF l := by
  simp [sumSF]

theorem sumSF_append (l1 l2 : List DirStats) :
    sumSF (l1 ++ l2) = sumSF l1 + sumSF l2 := by
  simp [sumSF]

theorem not_shouldSkipDirectory_ne (name : String)
    (h : ¬shouldSkipDirectory name = true) : name ≠ "node_modules" := by
  intro hn
  subst hn
  exact h (by decide)

mutual

theorem processEntry_spec (abs rel : String) (segs : List String) (g : GlobalStats)
    (e : Entry) : WSpec segs g (processEntry abs rel segs g e) := by
  cases e with
  | file name c =>
    obtain ⟨cr, cp⟩ := c
    by_cases h1 : shouldSkipPath (childRel rel name)
    · simp [processEntry, WSpec, h1, sumSF, DirStats.init]
    · by_cases h2 : isJSFile (pathJoin abs name)
      · cases cr <;> cases cp <;>
          · simp [processEntry, WSpec, h1, h2, sumSF, pfOk, pfParseFail, processFile,
              DirStats.init]
      · simp [processEntry, WSpec, h1, h2, sumSF, DirStats.init]
  | dir name sub =>
    by_cases h1 : shouldSkipDirectory name
    · simp [processEntry, WSpec, h1, sumSF, DirStats.init]
    · by_cases h2 : shouldSkipPath (childRel rel name)
      · simp [processEntry, WSpec, h1, h2, sumSF, DirStats.init]
      · have ih := processDirectory_spec (pathJoin abs name) (childRel rel name)
          (segs ++ [name]) g sub
        obtain ⟨ih1, ih2, ih3, ih4, ih5⟩ := ih
        rw [processEntry]
        simp only [h1, h2, if_false]
        refine ⟨by simpa using ih1, by simpa using ih2, ?_, by simpa using ih4, ?_⟩
        · simp only [DirStats.init, sumSF_cons]
          simpa using ih3
        · intro pf hpf
          obtain ⟨rest, hr1, hr2, hr3⟩ := ih5 pf hpf
          refine ⟨name :: rest, by simp [hr1], by simp, ?_⟩
          obtain ⟨x, t, rfl⟩ := List.exists_cons_of_ne_nil hr2
          simp only [List.dropLast_cons₂, List.mem_cons, not_or]
          exact ⟨Ne.symm (not_shouldSkipDirectory_ne name h1), by simpa using hr3⟩

theorem processDirectory_spec (abs rel : String) (segs : List String) (g : GlobalStats)
    (es : Entries) : WSpec segs g (processDirectory abs rel segs g es) := by
  cases es with
  | nil => simp [processDirectory, WSpec, sumSF, DirStats.init]
  | cons e rest =>
    have ih1 := processEntry_spec abs rel segs g e
    have ih2 := processDirectory_spec abs rel segs (processEntry abs rel segs g e).g rest
    obtain ⟨a1, a2, a3, a4, a5⟩ := ih1
    obtain ⟨b1, b2, b3, b4, b5⟩ := ih2
    rw [processDirectory]
    refine ⟨?_, ?_, ?_, ?_, ?_⟩
    · simp only [List.countP_append]
      omega
    · simp only [List.countP_append]
      omega
    · simp only [DirStats.add, sumSF_append, List.length_append]
      omega
    · simp only [List.filter_append, List.map_append]
      rw [a4, b4]
    · intro pf hpf
      rcases List.mem_append.mp hpf with hm | hm
      · exact a5 pf hm
      · exact b5 pf hm

end

/-! ## The claims -/

/-- C1: the glob matcher does **not** implement the specified wildcard
semantics.  Because `matchGlob` escapes literal dots *after* substituting
`**` → `.*`, the wildcard's own dot is escaped, so `**` ends up matching
only runs of literal dots: the compiled source for `**/*.test.js` is
`\.*/[^/]*\.test\.js`, and the match `matchGlob("**/*.test.js",
"src/a.test.js")`, required to be true by the claim (and by the code's own
comments), evaluates to false. -/
theorem C1_matchGlob_doublestar_escaped :
    matchGlob "**/*.test.js" "src/a.test.js" = false ∧
      matchGlob "**/*.test.js" "src/a.test.js.bak" = false ∧
      globToRegex "**/*.test.js" = "\\.*/[^/]*\\.test\\.js" := by
  refine ⟨by decide, by decide, by decide⟩

/-- A directory listing holding a single JavaScript file whose `readFile`
fails (and which would parse fine if it could be read). -/
def readFailTree : Entries :=
  Entries.cons (Entry.file "a.js" ⟨false, true⟩) Entries.nil

/-- C2: the claimed counting invariant fails on read-error paths.  For a
directory holding one JS file whose `readFile` fails, the walker's `catch`
increments the directory-level `filesWithErrors`, but `readFile` sits
outside the `try` of `processFile`, so no global counter is incremented:
the per-directory sum of succeeded + failed is 1 while the global sum
is 0. -/
theorem C2_readError_breaks_counter_invariant :
    sumSF ((processDirectory "/proj" "" [] GlobalStats.init readFailTree).d ::
        (processDirectory "/proj" "" [] GlobalStats.init readFailTree).reports) = 1 ∧
      (processDirectory "/proj" "" [] GlobalStats.init
            readFailTree).g.filesProcessedSuccessfully +
          (processDirectory "/proj" "" [] GlobalStats.init
            readFailTree).g.filesWithErrors = 0 := by
  refine ⟨by decide, by decide⟩

/-- C3 counterexample: the pipeline does not reclassify type-only imports.
`transform` invokes only the annotation rule (the `cleanupImports` and
`cleanupExports` calls are commented out), so a document holding one
type-only import declaration passes through the pipeline unchanged, still
tagged `type` — the claim requires it to come out tagged `value`. -/
theorem C3_counterexample_type_import_survives_pipeline :
    transform [Node.importDecl (some FKind.type) ["A"] "mod"] =
      [Node.importDecl (some FKind.type) ["A"] "mod"] := by
  decide

/-- C3 (amended): the pipeline applies only the annotation-stripping rule
before serializing; the import-kind normalization rule exists but is not
invoked by `transform`.  `cleanupImports` itself, when run, leaves no
type-only import behind and alters nothing but import kinds (specifier
lists and sources untouched). -/
theorem C3_pipeline_only_annotations_imports_rule_sound :
    (∀ d : Doc, transform d = cleanupAnnotations d) ∧
      (∀ d : Doc, hasTypeOnlyImport (cleanupImports d) = false) ∧
      (∀ d : Doc, eraseImportKinds (cleanupImports d) = eraseImportKinds d) := by
  refine ⟨fun d => rfl, fun d => ?_, fun d => ?_⟩
  · rw [cleanupImports, hasTypeOnlyImport, List.any_map, List.any_eq_false]
    intro x _
    cases x with
    | importDecl k specs src =>
      cases k with
      | none => simp [Function.comp, isTypeOnlyKind]
      | some fk => cases fk <;> simp [Function.comp, isTypeOnlyKind]
    | comment t => simp [Function.comp]
    | exportNamed k s => simp [Function.comp]
    | other c => simp [Function.comp]
  · rw [cleanupImports, eraseImportKinds, eraseImportKinds, List.map_map]
    apply List.map_congr_left
    intro x _
    cases x with
    | importDecl k specs src =>
      cases k with
      | none => simp [Function.comp]
      | some fk => cases fk <;> simp [Function.comp]
    | comment t => simp [Function.comp]
    | exportNamed k s => simp [Function.comp]
    | other c => simp [Function.comp]

/-- C4 counterexample: a type-only specifier under a value-kind declaration
is **not** reclassified.  `cleanupExports` touches a named export only when
the declaration-level kind is truthy and not `'value'`; for a declaration
of kind `value` holding one specifier of kind `type`, the document passes
through unchanged, so declaration and specifier do not end in the same
kind. -/
theorem C4_counterexample_value_decl_type_spec_unchanged :
    cleanupExports [Node.exportNamed (some FKind.value) [⟨"A", some FKind.type⟩]] =
      [Node.exportNamed (some FKind.value) [⟨"A", some FKind.type⟩]] := by
  decide

/-- C4 (amended): after `cleanupExports`, no declaration-level kind is
type-only; a declaration that is not type-only is left entirely unchanged
(so a type-only specifier under a value-kind declaration survives); and for
a document holding one type-only export with two type-marked specifiers,
the declaration and both specifiers are reclassified to value with nothing
else altered. -/
theorem C4_export_normalization_declaration_level :
    (∀ d : Doc, hasTypeOnlyExportDecl (cleanupExports d) = false) ∧
      (∀ (k : Option FKind) (specs : List ExportSpec), isTypeOnlyKind k = false →
        cleanupExports [Node.exportNamed k specs] = [Node.exportNamed k specs]) ∧
      cleanupExports [Node.other "x",
          Node.exportNamed (some FKind.type)
            [⟨"A", some FKind.type⟩, ⟨"B", some FKind.type⟩]] =
        [Node.other "x",
          Node.exportNamed (some FKind.value)
            [⟨"A", some FKind.value⟩, ⟨"B", some FKind.value⟩]] := by
  refine ⟨fun d => ?_, fun k specs h => ?_, by decide⟩
  · rw [cleanupExports, hasTypeOnlyExportDecl, List.any_map, List.any_eq_false]
    intro x _
    cases x with
    | exportNamed k s =>
      cases k with
      | none => simp [Function.comp, isTypeOnlyKind]
      | some fk => cases fk <;> simp [Function.comp, isTypeOnlyKind]
    | comment t => simp [Function.comp]
    | importDecl k s src => simp [Function.comp]
    | other c => simp [Function.comp]
  · simp [cleanupExports, h]

/-- Witness for the amended C4: a value-kind declaration with a type-only
specifier satisfies the hypothesis and is left unchanged. -/
theorem C4_export_normalization_declaration_level_witness :
    isTypeOnlyKind (some FKind.value) = false ∧
      cleanupExports [Node.exportNamed (some FKind.value) [⟨"B", some FKind.type⟩]] =
        [Node.exportNamed (some FKind.value) [⟨"B", some FKind.type⟩]] :=
  ⟨by decide, C4_export_normalization_declaration_level.2.1 (some FKind.value)
    [⟨"B", some FKind.type⟩] (by decide)⟩

/-- C5: a directory run whose walk hands exactly one file to `processFile`,
and whose read succeeds but whose parse fails, completes normally (exit
code 0: the per-file throw is swallowed by the walker's `catch`), with
global `filesWithErrors = 1`, `filesProcessedSuccessfully = 0`, and no
output file written. -/
theorem C5_single_parse_failure_counts_and_writes (abs rel : String) (es : Entries)
    (pf : PFile)
    (h1 : (processDirectory abs rel [] GlobalStats.init es).processed = [pf])
    (h2 : pf.content.readable = true) (h3 : pf.content.parses = false) :
    processPath (RunInput.directory abs rel es) =
        Except.ok ((processDirectory abs rel [] GlobalStats.init es).g,
          (processDirectory abs rel [] GlobalStats.init es).d ::
            (processDirectory abs rel [] GlobalStats.init es).reports,
          (processDirectory abs rel [] GlobalStats.init es).writes) ∧
      (processDirectory abs rel [] GlobalStats.init es).g.filesWithErrors = 1 ∧
      (processDirectory abs rel [] GlobalStats.init es).g.filesProcessedSuccessfully = 0 ∧
      (processDirectory abs rel [] GlobalStats.init es).writes = [] := by
  obtain ⟨s1, s2, -, s4, -⟩ := processDirectory_spec abs rel [] GlobalStats.init es
  rw [h1] at s1 s2 s4
  refine ⟨rfl, ?_, ?_, ?_⟩
  · rw [s2]
    simp [pfParseFail, h2, h3, GlobalStats.init]
  · rw [s1]
    simp [pfOk, h2, h3, GlobalStats.init]
  · rw [s4]
    simp [pfOk, h2, h3]

/-- A directory listing holding a single JavaScript file that reads fine
but fails to parse. -/
def parseFailTree : Entries :=
  Entries.cons (Entry.file "a.js" ⟨true, false⟩) Entries.nil

/-- The one file of `parseFailTree` as it reaches `processFile`. -/
def parseFailPF : PFile :=
  ⟨"/r/a.js", ["a.js"], ⟨true, false⟩⟩

/-- Witness for C5 at a concrete one-file directory. -/
theorem C5_single_parse_failure_counts_and_writes_witness :
    (processDirectory "/r" "" [] GlobalStats.init parseFailTree).processed =
        [parseFailPF] ∧
      (processDirectory "/r" "" [] GlobalStats.init
          parseFailTree).g.filesWithErrors = 1 ∧
      (processDirectory "/r" "" [] GlobalStats.init
          parseFailTree).g.filesProcessedSuccessfully = 0 ∧
      (processDirectory "/r" "" [] GlobalStats.init parseFailTree).writes = [] :=
  ⟨by decide,
    (C5_single_parse_failure_counts_and_writes "/r" "" parseFailTree parseFailPF
      (by decide) rfl rfl).2⟩

/-- C6: the transform pipeline is idempotent at the document level (the
serializer and parser are deterministic external capabilities): running
`transform` on its own output changes nothing, and after the first pass no
dialect-pragma comment remains (every node of the output survives the
pragma filter). -/
theorem C6_transform_idempotent (d : Doc) :
    transform (transform d) = transform d ∧
      (transform d).all keepNode = true := by
  constructor
  · rw [transform, transform, cleanupAnnotations, cleanupAnnotations,
      List.filter_filter]
    simp
  · rw [List.all_eq_true]
    intro x hx
    simp only [transform, cleanupAnnotations] at hx
    exact (List.mem_filter.mp hx).2

/-- C7: no file beneath a directory named `node_modules` is ever handed to
`processFile`: every processed file's position in the walked tree contains
no `node_modules` ancestor, whatever the glob patterns say, because
`shouldSkipDirectory` short-circuits the recursion by name before any glob
is consulted. -/
theorem C7_node_modules_never_processed (abs rel : String) (g : GlobalStats)
    (es : Entries) (pf : PFile)
    (hmem : pf ∈ (processDirectory abs rel [] g es).processed) :
    "node_modules" ∉ pf.segs.dropLast := by
  obtain ⟨-, -, -, -, h5⟩ := processDirectory_spec abs rel [] g es
  obtain ⟨rest, hr1, -, hr3⟩ := h5 pf hmem
  simp only [List.nil_append] at hr1
  rw [hr1]
  exact hr3

/-- A two-level tree with one processable file under `src/`. -/
def c7Tree : Entries :=
  Entries.cons
    (Entry.dir "src" (Entries.cons (Entry.file "a.js" ⟨true, true⟩) Entries.nil))
    Entries.nil

/-- The file of `c7Tree` as it reaches `processFile`. -/
def c7PF : PFile :=
  ⟨"/r/src/a.js", ["src", "a.js"], ⟨true, true⟩⟩

/-- Witness for C7 at a concrete two-level tree. -/
theorem C7_node_modules_never_processed_witness :
    c7PF ∈ (processDirectory "/r" "" [] GlobalStats.init c7Tree).processed ∧
      "node_modules" ∉ c7PF.segs.dropLast :=
  ⟨by decide,
    C7_node_modules_never_processed "/r" "" GlobalStats.init c7Tree c7PF (by decide)⟩

/-- C8: `createTransformedFilePath` appends `_transformed` to the base name
before the extension, preserving directory and extension, on the spec's two
examples. -/
theorem C8_createTransformedFilePath_examples :
    createTransformedFilePath "/a/b/Foo.jsx" = "/a/b/Foo_transformed.jsx" ∧
      createTransformedFilePath "/a/b/c.js" = "/a/b/c_transformed.js" := by
  refine ⟨by decide, by decide⟩

/-- C9: `processFile` writes only to the derived output path, and that path
is never equal to the original path (the derived path is strictly longer),
so the original file is never modified or deleted — on success and on both
failure kinds. -/
theorem C9_processFile_never_touches_original (p : String) (c : FileContent)
    (g : GlobalStats) :
    ((processFile p c g).2.2 = [] ∨
        (processFile p c g).2.2 = [createTransformedFilePath p]) ∧
      createTransformedFilePath p ≠ p := by
  constructor
  · rw [processFile]
    split_ifs <;> simp
  · exact createTransformedFilePath_ne p

/-- C10: a run whose input path resolves to a regular file calls
`processFile` unconditionally — no `isJSFile` check and no skip rule — so
even a file with a non-source extension is read, parsed, and gets a
`_transformed` output written next to it. -/
theorem C10_single_file_bypasses_eligibility (p : String) (c : FileContent)
    (h1 : isJSFile p = false) (h2 : c.readable = true) (h3 : c.parses = true) :
    processPath (RunInput.file p c) =
      Except.ok ({ GlobalStats.init with filesProcessedSuccessfully := 1 }, [],
        [createTransformedFilePath p]) := by
  simp [processPath, processFile, h2, h3, GlobalStats.init]

/-- Witness for C10: a `.txt` file — ineligible for the walker — is still
fully processed when named directly. -/
theorem C10_single_file_bypasses_eligibility_witness :
    isJSFile "/a/b.txt" = false ∧
      processPath (RunInput.file "/a/b.txt" ⟨true, true⟩) =
        Except.ok ({ GlobalStats.init with filesProcessedSuccessfully := 1 }, [],
          [createTransformedFilePath "/a/b.txt"]) :=
  ⟨by decide,
    C10_single_file_bypasses_eligibility "/a/b.txt" ⟨true, true⟩ (by decide) rfl rfl⟩

end NukeFlow
